import Mathlib

/-!
A verification development for the diff uploader in `src/differ.py`.

The program incrementally uploads a growing local file to one S3 object using
multipart uploads: it optionally reuses the existing object as part 1 via a
server-side copy, streams the new suffix of the local file through a gzip
compressor into an in-memory buffer, flushes the buffer as a part whenever it
exceeds `MULTIPART_TRIGGER_SIZE`, uploads the remaining buffer as a final part,
completes the multipart upload and records the uncompressed size in an object
tag.

Embedding choices:
* Byte strings are `List Nat`.
* The single destination object, its tag set, the open multipart session and
  the python-side cached size attribute (`S3Object._size`) live in one `World`
  record.  Every backend call goes through `prim`, which consumes one index of
  a fault schedule `F : Nat → Bool`; a `true` entry makes that backend call
  raise, modelling an arbitrary backend error.  Results are `Res α`: either
  `ok` with a value or `err` with the raised error, in both cases together
  with the world at that moment (a python exception leaves backend state as
  it is).
* An ETag is modelled by the part's content itself (an ETag identifies the
  uploaded bytes); `complete_multipart_upload` assembles the object from the
  part list it receives, in the given order.
* `gzip.GzipFile` is modelled by an abstract `Compressor`: a header emitted
  at construction time, a `write` that maps a chunk to emitted output bytes
  and a successor state, and a `close` that emits the trailing bytes.  The
  required correctness property of gzip (concatenated compressed streams
  decompress to the concatenation of the inputs) is the `RoundTrip`
  predicate on a compressor together with a decompression function.
* The `while` loop of `S3DiffUploader.upload` reads chunks of 8192 bytes
  until an empty read.  The chunk sequence of the remaining file content is
  `chunksOf rest`; the loop is embedded structurally over that list
  (`streamChunks`), whose `[]` case is exactly the `if not chunk` EOF branch
  of the source.
-/

namespace Differ

/-- The flush/resume threshold from `src/differ.py` line 14:
`MULTIPART_TRIGGER_SIZE = 10 << 19`, i.e. 5242880 bytes. -/
def MULTIPART_TRIGGER_SIZE : Nat := 10 <<< 19

/-- The tag key `total_uncompressed_size` from `src/differ.py` line 15. -/
def S3_TAG_UNCOMPRESSED_SIZE : String := "total_uncompressed_size"

/-- A part record as returned by `S3Object.copy_existing_object` and
`S3Object.upload_part`: a dict with keys `PartNumber` and `ETag`.  The ETag is
modelled by the content it identifies. -/
structure Part where
  partNumber : Nat
  etag : List Nat
deriving DecidableEq

/-- Errors a run can raise: a backend fault injected by the fault schedule, the
S3-side errors of the modelled calls, the `IndexError` of
`_get_bytes_from_tag` on a missing tag, and the `TypeError` of using the
python value `None` as an integer. -/
inductive Err where
  | backendFault : Err
  | noSuchUpload : Err
  | noSuchObject : Err
  | tagIndexError : Err
  | typeErr : Err
deriving DecidableEq

/-- The state of the destination object (bucket and key are fixed) together
with the python-side cached size attribute of the `S3Object` instance. -/
structure World where
  /-- `S3Object._size`: the cached `ContentLength`, `None` until a successful
  `head_object`. -/
  cachedSize : Option Nat
  /-- The stored bytes of the destination object, `none` when absent. -/
  objectBytes : Option (List Nat)
  /-- The object's tag set, pairs of key and (integer-valued) value. -/
  tagSet : List (String × Nat)
  /-- The open multipart upload session id, if one is open. -/
  openSession : Option Nat
  /-- The part list received by the last successful
  `complete_multipart_upload`. -/
  completedWith : Option (List Part)
  /-- Number of backend calls issued so far (the cursor into the fault
  schedule). -/
  nextCall : Nat
deriving DecidableEq

/-- The outcome of a stateful computation: a python return value or a raised
exception, in both cases with the world at that point. -/
inductive Res (α : Type) where
  | ok : α → World → Res α
  | err : Err → World → Res α
deriving DecidableEq

/-- The fault schedule under which no backend call fails. -/
def noFaults : Nat → Bool := fun _ => false

/-- Sequencing of stateful steps: a raised error propagates, as a python
exception does. -/
def Res.bind : Res α → (α → World → Res β) → Res β
  | .ok a w, f => f a w
  | .err e w, _ => .err e w

/-- Advance the backend-call cursor by one. -/
def bump (w : World) : World := { w with nextCall := w.nextCall + 1 }

/-- Issue one backend call: consult the fault schedule at the current cursor;
on a fault raise a backend error, otherwise run the call's semantics. -/
def prim (F : Nat → Bool) (f : World → Res α) (w : World) : Res α :=
  if F w.nextCall then .err .backendFault (bump w) else f (bump w)

/-- `S3Object.exists` (src/differ.py lines 28-40): `head_object`; on success
cache the `ContentLength` and return `True`; a missing object returns `False`
without touching the cache; any other backend error propagates. -/
def objExists (F : Nat → Bool) (w : World) : Res Bool :=
  prim F
    (fun w' =>
      match w'.objectBytes with
      | some b => .ok true { w' with cachedSize := some b.length }
      | none => .ok false w')
    w

/-- `S3Object.size` (src/differ.py lines 42-46): refresh via `exists` when the
cache is unset or `refresh` is requested, then return the cached value, which
is still `None` when the object was never successfully probed. -/
def objSize (F : Nat → Bool) (refresh : Bool) (w : World) : Res (Option Nat) :=
  if w.cachedSize.isNone || refresh then
    (objExists F w).bind fun _ w' => .ok w'.cachedSize w'
  else .ok w.cachedSize w

/-- The first value in a tag set whose key is `total_uncompressed_size`
(the list comprehension in `_get_bytes_from_tag`). -/
def tagLookup (ts : List (String × Nat)) : Option Nat :=
  ((ts.filter fun t => t.1 == S3_TAG_UNCOMPRESSED_SIZE).map fun t => t.2).head?

/-- `S3Object._get_bytes_from_tag` (src/differ.py lines 56-63):
`get_object_tagging`, then take element `[0]` of the matching values — an
`IndexError` when the tag is absent. -/
def getBytesFromTag (F : Nat → Bool) (w : World) : Res Nat :=
  prim F
    (fun w' =>
      match tagLookup w'.tagSet with
      | some v => .ok v w'
      | none => .err .tagIndexError w')
    w

/-- `S3Object.get_uncompressed_size` (src/differ.py lines 65-69): for a key
ending in `.gz` read the tag, otherwise return the raw cached `_size`
attribute (which can be python `None`, hence `Option Nat`). -/
def getUncompressedSize (F : Nat → Bool) (isGz : Bool) (w : World) : Res (Option Nat) :=
  if isGz then
    (getBytesFromTag F w).bind fun v w' => .ok (some v) w'
  else .ok w.cachedSize w

/-- Use an optional integer as an integer, as python does implicitly; `None`
raises a `TypeError`. -/
def forceNat (v : Option Nat) (w : World) : Res Nat :=
  match v with
  | some n => .ok n w
  | none => .err .typeErr w

/-- `S3Object.set_uncompressed_size` (src/differ.py lines 71-78):
`put_object_tagging` with a tag set holding exactly the one tag — a full
replacement of the object's tags. -/
def setUncompressedSize (F : Nat → Bool) (n : Nat) (w : World) : Res Unit :=
  prim F
    (fun w' => .ok () { w' with tagSet := [(S3_TAG_UNCOMPRESSED_SIZE, n)] })
    w

/-- `S3Object.start_multipart_upload` (src/differ.py lines 80-83):
`create_multipart_upload`, returning a fresh opaque upload id (modelled by
the call counter). -/
def startMultipartUpload (F : Nat → Bool) (w : World) : Res Nat :=
  prim F
    (fun w' => .ok w'.nextCall { w' with openSession := some w'.nextCall })
    w

/-- `S3Object.complete_multipart_upload` (src/differ.py lines 85-91): finalize
the session; the backend assembles the object from the parts in the order of
the received list. -/
def completeMultipartUpload (F : Nat → Bool) (uploadId : Nat) (parts : List Part)
    (w : World) : Res Unit :=
  prim F
    (fun w' =>
      if w'.openSession = some uploadId then
        .ok ()
          { w' with
            objectBytes := some ((parts.map Part.etag).flatten)
            openSession := none
            completedWith := some parts }
      else .err .noSuchUpload w')
    w

/-- `S3Object.copy_existing_object` (src/differ.py lines 93-101):
`upload_part_copy` of the object onto part number 1 of the session, returning
the part record `{"PartNumber": 1, "ETag": ...}`. -/
def copyExistingObject (F : Nat → Bool) (uploadId : Nat) (w : World) : Res Part :=
  prim F
    (fun w' =>
      if w'.openSession = some uploadId then
        match w'.objectBytes with
        | some b => .ok ⟨1, b⟩ w'
        | none => .err .noSuchObject w'
      else .err .noSuchUpload w')
    w

/-- `S3Object.upload_part` (src/differ.py lines 103-115): upload the buffer's
contents as the given part number, then rewind and truncate the buffer; the
emptied buffer is returned to the caller (in python this is an in-place side
effect on the `BytesIO` object). -/
def uploadPart (F : Nat → Bool) (uploadId partId : Nat) (partBytes : List Nat)
    (w : World) : Res (Part × List Nat) :=
  prim F
    (fun w' =>
      if w'.openSession = some uploadId then .ok (⟨partId, partBytes⟩, []) w'
      else .err .noSuchUpload w')
    w

/-- Abstract model of `gzip.GzipFile(fileobj=stream, mode="w")`: the header
bytes written to the stream at construction, a `write` mapping the compressor
state and a chunk to the successor state and the bytes emitted to the stream,
and `close` giving the trailing bytes flushed at `compressor.close()`. -/
structure Compressor (σ : Type) where
  initState : σ
  header : List Nat
  write : σ → List Nat → σ × List Nat
  close : σ → List Nat

/-- Compressor state after feeding a list of chunks. -/
def stateAfter (c : Compressor σ) : σ → List (List Nat) → σ
  | cs, [] => cs
  | cs, chunk :: rest => stateAfter c (c.write cs chunk).1 rest

/-- Bytes emitted to the stream while feeding a list of chunks. -/
def outsAfter (c : Compressor σ) : σ → List (List Nat) → List Nat
  | _, [] => []
  | cs, chunk :: rest => (c.write cs chunk).2 ++ outsAfter c (c.write cs chunk).1 rest

/-- The full compressed stream produced by one compressor lifetime over a
chunk sequence: header, all write outputs, then the closing trailer. -/
def compressAll (c : Compressor σ) (chunks : List (List Nat)) : List Nat :=
  c.header ++ outsAfter c c.initState chunks ++ c.close (stateAfter c c.initState chunks)

/-- The correctness property the design requires of the compression format:
decompressing any concatenation of independently produced compressed streams
yields the concatenation of the original inputs. -/
def RoundTrip (c : Compressor σ) (dec : List Nat → List Nat) : Prop :=
  ∀ chunkss : List (List (List Nat)),
    dec ((chunkss.map (compressAll c)).flatten) = (chunkss.map List.flatten).flatten

/-- Fuel-driven chunking helper; with fuel at least the length of the input it
splits the input into successive blocks of 8192 bytes. -/
def chunksOfAux : Nat → List Nat → List (List Nat)
  | 0, _ => []
  | fuel + 1, bs => if bs.isEmpty then [] else bs.take 8192 :: chunksOfAux fuel (bs.drop 8192)

/-- The sequence of chunks `inputFile.read(8192)` yields for the remaining
file content, ending just before the empty read. -/
def chunksOf (bs : List Nat) : List (List Nat) := chunksOfAux bs.length bs

/-- The loop body for one non-empty chunk (src/differ.py lines 172-177): feed
the chunk to the compressor, and when the stream has grown beyond
`MULTIPART_TRIGGER_SIZE` upload it as part `len(parts) + 1`, append the
returned part record, and continue with the emptied buffer. -/
def streamStep (F : Nat → Bool) (c : Compressor σ) (mpuId : Nat) (cs : σ)
    (buf : List Nat) (parts : List Part) (chunk : List Nat) (w : World) :
    Res (σ × List Nat × List Part) :=
  if (buf ++ (c.write cs chunk).2).length > MULTIPART_TRIGGER_SIZE then
    (uploadPart F mpuId (parts.length + 1) (buf ++ (c.write cs chunk).2) w).bind
      fun pb w' => .ok ((c.write cs chunk).1, pb.2, parts ++ [pb.1]) w'
  else .ok ((c.write cs chunk).1, buf ++ (c.write cs chunk).2, parts) w

/-- The `while True` loop of `S3DiffUploader.upload` (src/differ.py lines
160-177) over the chunk sequence of the remaining input.  The `[]` case is the
EOF branch: close the compressor so that its trailing bytes land in the
stream, upload the stream's remaining contents as the final part, complete the
multipart upload with the accumulated part list, and write the uncompressed
file size to the tag. -/
def streamChunks (F : Nat → Bool) (c : Compressor σ) (mpuId fileSize : Nat) :
    σ → List Nat → List Part → List (List Nat) → World → Res Unit
  | cs, buf, parts, [], w =>
    (uploadPart F mpuId (parts.length + 1) (buf ++ c.close cs) w).bind fun pb w1 =>
      (completeMultipartUpload F mpuId (parts ++ [pb.1]) w1).bind fun _ w2 =>
        setUncompressedSize F fileSize w2
  | cs, buf, parts, chunk :: rest, w =>
    (streamStep F c mpuId cs buf parts chunk w).bind fun sbp w1 =>
      streamChunks F c mpuId fileSize sbp.1 sbp.2.1 sbp.2.2 rest w1

/-- The part records the loop appends after a given point, as a pure function
of the compressor state, buffer, next part number and remaining chunks:
mid-stream flushes followed by the final part `buffer ++ close`. -/
def newParts (c : Compressor σ) : σ → List Nat → Nat → List (List Nat) → List Part
  | cs, buf, k, [] => [⟨k, buf ++ c.close cs⟩]
  | cs, buf, k, chunk :: rest =>
    if (buf ++ (c.write cs chunk).2).length > MULTIPART_TRIGGER_SIZE then
      ⟨k, buf ++ (c.write cs chunk).2⟩ :: newParts c (c.write cs chunk).1 [] (k + 1) rest
    else newParts c (c.write cs chunk).1 (buf ++ (c.write cs chunk).2) k rest

/-- The planning phase of `S3DiffUploader.upload` (src/differ.py lines
150-154): when the object exists and its (physical) size exceeds the trigger
size, start from the recorded uncompressed size and copy the existing object
as part 1; otherwise start from byte 0 with no initial part. -/
def planPhase (F : Nat → Bool) (isGz : Bool) (mpuId : Nat) (w : World) :
    Res (Nat × List Part) :=
  (objExists F w).bind fun ex w1 =>
    if ex then
      (objSize F false w1).bind fun szo w2 =>
        (forceNat szo w2).bind fun sz w2' =>
          if sz > MULTIPART_TRIGGER_SIZE then
            (getUncompressedSize F isGz w2').bind fun sbo w3 =>
              (forceNat sbo w3).bind fun sb w3' =>
                (copyExistingObject F mpuId w3').bind fun p w4 =>
                  .ok (sb, [p]) w4
          else .ok (0, []) w2'
    else .ok (0, []) w1

/-- `S3DiffUploader.upload` (src/differ.py lines 137-181): start a multipart
upload, create the stream and the compressor (which writes its header into the
stream), plan the starting byte and initial part list, stream the file content
from the starting byte through the loop, and finally re-probe the object size
for the closing log line. -/
def uploadEngine (F : Nat → Bool) (isGz : Bool) (c : Compressor σ) (src : List Nat)
    (w : World) : Res Unit :=
  (startMultipartUpload F w).bind fun mpuId w1 =>
    (planPhase F isGz mpuId w1).bind fun sp w2 =>
      (streamChunks F c mpuId src.length c.initState c.header sp.2
          (chunksOf (src.drop sp.1)) w2).bind fun _ w3 =>
        (objSize F true w3).bind fun _ w4 => .ok () w4

/-- `S3DiffUploader.__init__` (src/differ.py lines 131-135): the source path
(its content here), the destination (here: whether the key ends in `.gz`) and
the `compress` flag, which is stored on the instance. -/
structure S3DiffUploader where
  src : List Nat
  destIsGz : Bool
  compress : Bool
deriving DecidableEq

/-- The `upload` method on the uploader instance.  Note that the body never
consults `self._compress`: the compressor is always constructed. -/
def S3DiffUploader.upload (u : S3DiffUploader) (F : Nat → Bool) (c : Compressor σ)
    (w : World) : Res Unit :=
  uploadEngine F u.destIsGz c u.src w

/-- Successive runs of the engine over a sequence of local-file states,
stopping at the first raised error. -/
def uploadRuns (F : Nat → Bool) (isGz : Bool) (c : Compressor σ) :
    List (List Nat) → World → Res Unit
  | [], w => .ok () w
  | f :: fs, w =>
    (uploadEngine F isGz c f w).bind fun _ w' => uploadRuns F isGz c fs w'

/-- The successive file states of an append-only history: starting from `pre`,
each delta is appended to the previous state. -/
def cumulativeFrom (pre : List Nat) : List (List Nat) → List (List Nat)
  | [] => []
  | d :: ds => (pre ++ d) :: cumulativeFrom (pre ++ d) ds

/-- The file states produced by an append-only history starting from an empty
file. -/
def cumulativeFiles (deltas : List (List Nat)) : List (List Nat) :=
  cumulativeFrom [] deltas

/-- The cross-run invariant: the stored object is a concatenation of complete
compressed streams whose decompressed contents concatenate to the current
file, and the tag records the current file's byte count. -/
def Inv (c : Compressor σ) (w : World) (f : List Nat) : Prop :=
  ∃ segss : List (List (List Nat)),
    w.objectBytes = some ((segss.map (compressAll c)).flatten)
    ∧ (segss.map List.flatten).flatten = f
    ∧ w.tagSet = [(S3_TAG_UNCOMPRESSED_SIZE, f.length)]

/-- Modelled from the spec: the `logicalSize()` contract of the claim —
"otherwise returns `physicalSize()`", i.e. the non-gz branch goes through the
`size()` accessor, refreshing the cached value when it is unset.  This is the
comparison point for the source's `get_uncompressed_size`, which returns the
raw cached attribute instead. -/
def logicalSizeSpec (F : Nat → Bool) (isGz : Bool) (w : World) : Res (Option Nat) :=
  if isGz then
    (getBytesFromTag F w).bind fun v w' => .ok (some v) w'
  else
    (objSize F false w).bind fun v w' => .ok v w'

/-- The identity compressor: no header, `write` emits the chunk unchanged,
`close` emits nothing.  Its decompressor is the identity. -/
def echoC : Compressor Unit :=
  { initState := ()
    header := []
    write := fun _ chunk => ((), chunk)
    close := fun _ => [] }

/-- A buffering compressor in the qualitative shape gzip takes on highly
compressible data: `write` emits nothing and accumulates the input; `close`
emits one self-delimiting block, the input length followed by the input. -/
def lenC : Compressor (List Nat) :=
  { initState := []
    header := []
    write := fun s chunk => (s ++ chunk, [])
    close := fun s => s.length :: s }

/-- Decompressor for `lenC`: read a length, split off that many bytes,
recurse. -/
def lenD : List Nat → List Nat
  | [] => []
  | n :: rest => rest.take n ++ lenD (rest.drop n)
termination_by bs => bs.length
decreasing_by
  simp only [List.length_cons, List.length_drop]
  omega

/-- A compressor whose single write output already exceeds the trigger size;
used to exhibit the flush branch of the stream loop on a small input. -/
def blowC : Compressor Unit :=
  { initState := ()
    header := []
    write := fun _ _ => ((), List.replicate (MULTIPART_TRIGGER_SIZE + 1) 0)
    close := fun _ => [] }

/-- The number of parts a finished run handed to `complete_multipart_upload`,
read off an engine result. -/
def completedCount : Res Unit → Option Nat
  | .ok _ w => w.completedWith.map List.length
  | .err _ _ => none

/-- The world a computation ends in, whether it returned or raised. -/
def resWorld : Res α → World
  | .ok _ w => w
  | .err _ w => w

/-- A world with no destination object: blank tag set, no cached size, no open
session, call cursor at zero. -/
def coldWorld : World :=
  { cachedSize := none
    objectBytes := none
    tagSet := []
    openSession := none
    completedWith := none
    nextCall := 0 }

/-! ### Chunking lemmas -/

theorem trigger_value : MULTIPART_TRIGGER_SIZE = 5242880 := by decide

theorem chunksOfAux_fuel : ∀ f1 f2 bs, bs.length ≤ f1 → bs.length ≤ f2 →
    chunksOfAux f1 bs = chunksOfAux f2 bs := by
  intro f1
  induction f1 with
  | zero =>
    intro f2 bs h1 _
    have hbs : bs = [] := by
      cases bs with
      | nil => rfl
      | cons a l => simp at h1
    subst hbs
    cases f2 <;> simp [chunksOfAux]
  | succ f1 ih =>
    intro f2 bs h1 h2
    cases f2 with
    | zero =>
      have hbs : bs = [] := by
        cases bs with
        | nil => rfl
        | cons a l => simp at h2
      subst hbs
      simp [chunksOfAux]
    | succ f2 =>
      cases bs with
      | nil => simp [chunksOfAux]
      | cons a l =>
        simp only [chunksOfAux, List.isEmpty_cons, Bool.false_eq_true, if_false]
        congr 1
        apply ih
        · simp only [List.length_drop, List.length_cons]
          simp only [List.length_cons] at h1
          omega
        · simp only [List.length_drop, List.length_cons]
          simp only [List.length_cons] at h2
          omega

theorem chunksOf_nil : chunksOf [] = [] := rfl

theorem chunksOf_cons (bs : List Nat) (h : bs ≠ []) :
    chunksOf bs = bs.take 8192 :: chunksOf (bs.drop 8192) := by
  cases bs with
  | nil => exact absurd rfl h
  | cons a l =>
    show chunksOfAux (a :: l).length (a :: l) = _
    simp only [List.length_cons, chunksOfAux, List.isEmpty_cons, Bool.false_eq_true, if_false]
    congr 1
    apply chunksOfAux_fuel
    · simp only [List.length_drop, List.length_cons]
      omega
    · exact Nat.le_refl _

theorem flatten_chunksOfAux : ∀ fuel bs, bs.length ≤ fuel → (chunksOfAux fuel bs).flatten = bs := by
  intro fuel
  induction fuel with
  | zero =>
    intro bs h
    have hbs : bs = [] := by
      cases bs with
      | nil => rfl
      | cons a l => simp at h
    subst hbs
    rfl
  | succ fuel ih =>
    intro bs h
    cases bs with
    | nil => rfl
    | cons a l =>
      simp only [chunksOfAux, List.isEmpty_cons, Bool.false_eq_true, if_false,
        List.flatten_cons]
      rw [ih]
      · exact List.take_append_drop 8192 (a :: l)
      · simp only [List.length_drop, List.length_cons]
        simp only [List.length_cons] at h
        omega

theorem flatten_chunksOf (bs : List Nat) : (chunksOf bs).flatten = bs :=
  flatten_chunksOfAux bs.length bs (Nat.le_refl _)

/-! ### The identity compressor and its round trip -/

theorem echoC_write (cs : Unit) (ch : List Nat) : echoC.write cs ch = ((), ch) := rfl

theorem echoC_close (cs : Unit) : echoC.close cs = [] := rfl

theorem outsAfter_echo : ∀ chunks cs, outsAfter echoC cs chunks = chunks.flatten := by
  intro chunks
  induction chunks with
  | nil => intro cs; rfl
  | cons chunk rest ih =>
    intro cs
    simp only [outsAfter, echoC_write, List.flatten_cons]
    rw [ih]

theorem compressAll_echo (chunks : List (List Nat)) :
    compressAll echoC chunks = chunks.flatten := by
  show echoC.header ++ outsAfter echoC echoC.initState chunks
      ++ echoC.close (stateAfter echoC echoC.initState chunks) = chunks.flatten
  rw [outsAfter_echo, echoC_close]
  simp [echoC]

theorem roundTrip_echo : RoundTrip echoC id := by
  intro chunkss
  have h : compressAll echoC = List.flatten := funext compressAll_echo
  rw [h]
  rfl

/-! ### The buffering compressor and its round trip -/

theorem lenC_write (s ch : List Nat) : lenC.write s ch = (s ++ ch, []) := rfl

theorem lenC_close (s : List Nat) : lenC.close s = s.length :: s := rfl

theorem stateAfter_lenC : ∀ chunks s, stateAfter lenC s chunks = s ++ chunks.flatten := by
  intro chunks
  induction chunks with
  | nil => intro s; simp [stateAfter]
  | cons chunk rest ih =>
    intro s
    simp only [stateAfter, lenC_write, List.flatten_cons]
    rw [ih, List.append_assoc]

theorem outsAfter_lenC : ∀ chunks s, outsAfter lenC s chunks = [] := by
  intro chunks
  induction chunks with
  | nil => intro s; rfl
  | cons chunk rest ih =>
    intro s
    simp only [outsAfter, lenC_write]
    rw [ih]
    rfl

theorem lenC_silent : ∀ s ch, (lenC.write s ch).2 = [] := by
  intro s ch
  rfl

theorem compressAll_lenC (chunks : List (List Nat)) :
    compressAll lenC chunks = chunks.flatten.length :: chunks.flatten := by
  show lenC.header ++ outsAfter lenC lenC.initState chunks
      ++ lenC.close (stateAfter lenC lenC.initState chunks) = _
  rw [outsAfter_lenC, stateAfter_lenC, lenC_close]
  simp [lenC]

theorem lenD_block : ∀ data rest : List Nat,
    lenD ((data.length :: data) ++ rest) = data ++ lenD rest := by
  intro data rest
  rw [List.cons_append, lenD]
  rw [List.take_left, List.drop_left]

theorem roundTrip_lenC : RoundTrip lenC lenD := by
  intro chunkss
  induction chunkss with
  | nil => simp [lenD]
  | cons c cs ih =>
    simp only [List.map_cons, List.flatten_cons, compressAll_lenC]
    rw [show (c.flatten.length :: c.flatten) ++ (cs.map (compressAll lenC)).flatten
        = (c.flatten.length :: c.flatten) ++ (cs.map (compressAll lenC)).flatten from rfl]
    rw [lenD_block]
    rw [ih]

/-! ### Lemmas about the pure part-list function -/

theorem newParts_flatten (c : Compressor σ) : ∀ chunks cs buf k,
    ((newParts c cs buf k chunks).map Part.etag).flatten
      = buf ++ outsAfter c cs chunks ++ c.close (stateAfter c cs chunks) := by
  intro chunks
  induction chunks with
  | nil =>
    intro cs buf k
    simp [newParts, outsAfter, stateAfter]
  | cons chunk rest ih =>
    intro cs buf k
    simp only [newParts, outsAfter, stateAfter]
    split
    · simp only [List.map_cons, List.flatten_cons, ih]
      simp [List.append_assoc]
    · rw [ih]
      simp [List.append_assoc]

theorem newParts_numbers (c : Compressor σ) : ∀ chunks cs buf k,
    (newParts c cs buf k chunks).map Part.partNumber
      = List.range' k (newParts c cs buf k chunks).length := by
  intro chunks
  induction chunks with
  | nil => intro cs buf k; simp [newParts]
  | cons chunk rest ih =>
    intro cs buf k
    simp only [newParts]
    split
    · simp only [List.map_cons, List.length_cons, ih, List.range'_succ]
    · exact ih _ _ _

theorem newParts_ne_nil (c : Compressor σ) : ∀ chunks cs buf k,
    newParts c cs buf k chunks ≠ [] := by
  intro chunks
  induction chunks with
  | nil => intro cs buf k; simp [newParts]
  | cons chunk rest ih =>
    intro cs buf k
    simp only [newParts]
    split
    · simp
    · exact ih _ _ _

theorem newParts_silent (c : Compressor σ) (hsil : ∀ s ch, (c.write s ch).2 = []) :
    ∀ chunks cs k, newParts c cs [] k chunks = [⟨k, c.close (stateAfter c cs chunks)⟩] := by
  intro chunks
  induction chunks with
  | nil => intro cs k; simp [newParts, stateAfter]
  | cons chunk rest ih =>
    intro cs k
    simp only [newParts, hsil, List.append_nil, List.length_nil, stateAfter]
    rw [if_neg]
    · exact ih _ _
    · simp [trigger_value]

theorem newParts_echo : ∀ n rest buf k, rest.length ≤ n →
    buf.length + rest.length = MULTIPART_TRIGGER_SIZE + 1 →
    rest.length % 8192 = 1 →
    newParts echoC () buf k (chunksOf rest) = [⟨k, buf ++ rest⟩, ⟨k + 1, []⟩] := by
  intro n
  induction n with
  | zero =>
    intro rest buf k hlen _ hmod
    have : rest.length = 0 := Nat.le_zero.mp hlen
    omega
  | succ n ih =>
    intro rest buf k hlen hsum hmod
    have hne : rest ≠ [] := by
      intro h
      subst h
      simp at hmod
    rw [chunksOf_cons rest hne]
    by_cases hle : rest.length ≤ 8192
    · have h1 : rest.length = 1 := by omega
      have htake : rest.take 8192 = rest := List.take_of_length_le (by omega)
      have hdrop : rest.drop 8192 = [] := List.drop_eq_nil_of_le (by omega)
      simp only [newParts, echoC_write, htake, hdrop, chunksOf_nil]
      rw [if_pos]
      · simp [newParts, echoC_close]
      · simp only [List.length_append]
        omega
    · simp only [newParts, echoC_write]
      rw [if_neg]
      · have := ih (rest.drop 8192) (buf ++ rest.take 8192) k
          (by simp only [List.length_drop]; omega)
          (by simp only [List.length_append, List.length_take, List.length_drop]; omega)
          (by simp only [List.length_drop]; omega)
        rw [this]
        rw [List.append_assoc, List.take_append_drop]
      · simp only [List.length_append, List.length_take]
        omega

/-! ### Characterizations of the backend primitives -/

theorem uploadPart_spec (F : Nat → Bool) (uid pid : Nat) (pb : List Nat) (w : World) :
    uploadPart F uid pid pb w =
      if F w.nextCall then .err .backendFault (bump w)
      else if w.openSession = some uid then .ok (⟨pid, pb⟩, []) (bump w)
      else .err .noSuchUpload (bump w) := rfl

theorem completeMultipartUpload_spec (F : Nat → Bool) (uid : Nat) (parts : List Part)
    (w : World) :
    completeMultipartUpload F uid parts w =
      if F w.nextCall then .err .backendFault (bump w)
      else if w.openSession = some uid then
        .ok ()
          { bump w with
            objectBytes := some ((parts.map Part.etag).flatten)
            openSession := none
            completedWith := some parts }
      else .err .noSuchUpload (bump w) := rfl

theorem setUncompressedSize_spec (F : Nat → Bool) (n : Nat) (w : World) :
    setUncompressedSize F n w =
      if F w.nextCall then .err .backendFault (bump w)
      else .ok () { bump w with tagSet := [(S3_TAG_UNCOMPRESSED_SIZE, n)] } := rfl

theorem objExists_spec (F : Nat → Bool) (w : World) :
    objExists F w =
      if F w.nextCall then .err .backendFault (bump w)
      else
        match w.objectBytes with
        | some b => .ok true { bump w with cachedSize := some b.length }
        | none => .ok false (bump w) := rfl

theorem getBytesFromTag_spec (F : Nat → Bool) (w : World) :
    getBytesFromTag F w =
      if F w.nextCall then .err .backendFault (bump w)
      else
        match tagLookup w.tagSet with
        | some v => .ok v (bump w)
        | none => .err .tagIndexError (bump w) := rfl

theorem copyExistingObject_spec (F : Nat → Bool) (uid : Nat) (w : World) :
    copyExistingObject F uid w =
      if F w.nextCall then .err .backendFault (bump w)
      else if w.openSession = some uid then
        match w.objectBytes with
        | some b => .ok ⟨1, b⟩ (bump w)
        | none => .err .noSuchObject (bump w)
      else .err .noSuchUpload (bump w) := rfl

theorem startMultipartUpload_spec (F : Nat → Bool) (w : World) :
    startMultipartUpload F w =
      if F w.nextCall then .err .backendFault (bump w)
      else .ok (w.nextCall + 1) { bump w with openSession := some (w.nextCall + 1) } := rfl

/-! ### The master post-condition of the stream loop -/

theorem Res.bind_ok (a : α) (w : World) (f : α → World → Res β) :
    (Res.ok a w).bind f = f a w := rfl

theorem Res.bind_err (e : Err) (w : World) (f : α → World → Res β) :
    (Res.err e w).bind f = .err e w := rfl

/-- On success the loop has called `complete_multipart_upload` with the
initial part list extended by `newParts`, the object now holds the assembled
bytes, the tag holds the recorded file size and the session is closed; on a
raised error the tag set is untouched; and under a fault-free schedule with a
matching open session the loop cannot raise. -/
theorem streamChunks_spec (F : Nat → Bool) (c : Compressor σ) (mpuId fileSize : Nat) :
    ∀ chunks cs buf parts (w : World),
      (∀ u w', streamChunks F c mpuId fileSize cs buf parts chunks w = .ok u w' →
        w'.completedWith = some (parts ++ newParts c cs buf (parts.length + 1) chunks)
        ∧ w'.objectBytes = some
            (((parts ++ newParts c cs buf (parts.length + 1) chunks).map Part.etag).flatten)
        ∧ w'.tagSet = [(S3_TAG_UNCOMPRESSED_SIZE, fileSize)]
        ∧ w'.openSession = none)
      ∧ (∀ e w', streamChunks F c mpuId fileSize cs buf parts chunks w = .err e w' →
        w'.tagSet = w.tagSet
        ∧ ((∀ i, F i = false) → w.openSession = some mpuId → False)) := by
  intro chunks
  induction chunks with
  | nil =>
    intro cs buf parts w
    constructor
    · intro u w' h
      simp only [streamChunks, uploadPart_spec] at h
      by_cases hF1 : F w.nextCall = true
      · rw [if_pos hF1] at h
        simp only [Res.bind_err] at h
        cases h
      · rw [if_neg hF1] at h
        by_cases hS : w.openSession = some mpuId
        · rw [if_pos hS] at h
          simp only [Res.bind_ok] at h
          simp only [completeMultipartUpload_spec] at h
          by_cases hF2 : F (bump w).nextCall = true
          · rw [if_pos hF2] at h
            simp only [Res.bind_err] at h
            cases h
          · rw [if_neg hF2] at h
            rw [if_pos (show (bump w).openSession = some mpuId from hS)] at h
            simp only [Res.bind_ok] at h
            simp only [setUncompressedSize_spec] at h
            by_cases hF3 : F (bump (bump w)).nextCall = true
            · rw [if_pos hF3] at h
              cases h
            · rw [if_neg hF3] at h
              cases h
              exact ⟨rfl, rfl, rfl, rfl⟩
        · rw [if_neg hS] at h
          simp only [Res.bind_err] at h
          cases h
    · intro e w' h
      simp only [streamChunks, uploadPart_spec] at h
      by_cases hF1 : F w.nextCall = true
      · rw [if_pos hF1] at h
        simp only [Res.bind_err] at h
        cases h
        refine ⟨rfl, fun hnf _ => ?_⟩
        rw [hnf w.nextCall] at hF1
        simp at hF1
      · rw [if_neg hF1] at h
        by_cases hS : w.openSession = some mpuId
        · rw [if_pos hS] at h
          simp only [Res.bind_ok] at h
          simp only [completeMultipartUpload_spec] at h
          by_cases hF2 : F (bump w).nextCall = true
          · rw [if_pos hF2] at h
            simp only [Res.bind_err] at h
            cases h
            refine ⟨rfl, fun hnf _ => ?_⟩
            rw [hnf (bump w).nextCall] at hF2
            simp at hF2
          · rw [if_neg hF2] at h
            rw [if_pos (show (bump w).openSession = some mpuId from hS)] at h
            simp only [Res.bind_ok] at h
            simp only [setUncompressedSize_spec] at h
            by_cases hF3 : F (bump (bump w)).nextCall = true
            · rw [if_pos hF3] at h
              cases h
              refine ⟨rfl, fun hnf _ => ?_⟩
              rw [hnf (bump (bump w)).nextCall] at hF3
              simp at hF3
            · rw [if_neg hF3] at h
              cases h
        · rw [if_neg hS] at h
          simp only [Res.bind_err] at h
          cases h
          exact ⟨rfl, fun _ hS' => absurd hS' hS⟩
  | cons chunk rest ih =>
    intro cs buf parts w
    constructor
    · intro u w' h
      simp only [streamChunks, streamStep] at h
      by_cases hflush : (buf ++ (c.write cs chunk).2).length > MULTIPART_TRIGGER_SIZE
      · rw [if_pos hflush] at h
        simp only [uploadPart_spec] at h
        by_cases hF1 : F w.nextCall = true
        · rw [if_pos hF1] at h
          simp only [Res.bind_err] at h
          cases h
        · rw [if_neg hF1] at h
          by_cases hS : w.openSession = some mpuId
          · rw [if_pos hS] at h
            simp only [Res.bind_ok] at h
            obtain ⟨ha, hb, hc2, hd⟩ := (ih (c.write cs chunk).1 []
                (parts ++ [⟨parts.length + 1, buf ++ (c.write cs chunk).2⟩]) (bump w)).1 u w' h
            refine ⟨?_, ?_, hc2, hd⟩
            · rw [ha]
              simp only [newParts]
              rw [if_pos hflush]
              simp [List.append_assoc, List.length_append]
            · rw [hb]
              simp only [newParts]
              rw [if_pos hflush]
              simp [List.append_assoc, List.length_append]
          · rw [if_neg hS] at h
            simp only [Res.bind_err] at h
            cases h
      · rw [if_neg hflush] at h
        simp only [Res.bind_ok] at h
        obtain ⟨ha, hb, hc2, hd⟩ :=
          (ih (c.write cs chunk).1 (buf ++ (c.write cs chunk).2) parts w).1 u w' h
        refine ⟨?_, ?_, hc2, hd⟩
        · rw [ha]
          simp only [newParts]
          rw [if_neg hflush]
        · rw [hb]
          simp only [newParts]
          rw [if_neg hflush]
    · intro e w' h
      simp only [streamChunks, streamStep] at h
      by_cases hflush : (buf ++ (c.write cs chunk).2).length > MULTIPART_TRIGGER_SIZE
      · rw [if_pos hflush] at h
        simp only [uploadPart_spec] at h
        by_cases hF1 : F w.nextCall = true
        · rw [if_pos hF1] at h
          simp only [Res.bind_err] at h
          cases h
          refine ⟨rfl, fun hnf _ => ?_⟩
          rw [hnf w.nextCall] at hF1
          simp at hF1
        · rw [if_neg hF1] at h
          by_cases hS : w.openSession = some mpuId
          · rw [if_pos hS] at h
            simp only [Res.bind_ok] at h
            obtain ⟨ha, hb⟩ := (ih (c.write cs chunk).1 []
                (parts ++ [⟨parts.length + 1, buf ++ (c.write cs chunk).2⟩]) (bump w)).2 e w' h
            exact ⟨ha, fun hnf _ => hb hnf hS⟩
          · rw [if_neg hS] at h
            simp only [Res.bind_err] at h
            cases h
            exact ⟨rfl, fun _ hS' => absurd hS' hS⟩
      · rw [if_neg hflush] at h
        simp only [Res.bind_ok] at h
        exact (ih (c.write cs chunk).1 (buf ++ (c.write cs chunk).2) parts w).2 e w' h

/-! ### Fault-free runs of the loop -/

theorem noFaults_eq (i : Nat) : noFaults i = false := rfl

theorem streamChunks_noFaults (c : Compressor σ) (mpuId fileSize : Nat)
    (chunks : List (List Nat)) (cs : σ) (buf : List Nat) (parts : List Part) (w : World)
    (hS : w.openSession = some mpuId) :
    ∃ u w', streamChunks noFaults c mpuId fileSize cs buf parts chunks w = .ok u w' := by
  cases hres : streamChunks noFaults c mpuId fileSize cs buf parts chunks w with
  | ok u w' => exact ⟨u, w', rfl⟩
  | err e w' =>
    obtain ⟨_, hcontra⟩ :=
      (streamChunks_spec noFaults c mpuId fileSize chunks cs buf parts w).2 e w' hres
    exact (hcontra (fun _ => rfl) hS).elim

/-! ### Plan-phase characterizations -/

theorem planPhase_cold (F : Nat → Bool) (isGz : Bool) (mpuId : Nat) (w : World)
    (hF : F w.nextCall = false) (hob : w.objectBytes = none) :
    planPhase F isGz mpuId w = .ok (0, []) (bump w) := by
  simp only [planPhase, objExists_spec, hF, Bool.false_eq_true, if_false, hob, Res.bind_ok]

theorem planPhase_small (F : Nat → Bool) (isGz : Bool) (mpuId : Nat) (w : World)
    (b : List Nat) (hF : F w.nextCall = false) (hob : w.objectBytes = some b)
    (hsize : ¬ b.length > MULTIPART_TRIGGER_SIZE) :
    planPhase F isGz mpuId w = .ok (0, []) { bump w with cachedSize := some b.length } := by
  simp only [planPhase, objExists_spec, hF, Bool.false_eq_true, if_false, hob, Res.bind_ok,
    if_true, objSize, Option.isNone_some, Bool.or_self, forceNat]
  rw [if_neg hsize]

theorem planPhase_resume (mpuId n : Nat) (w : World) (b : List Nat)
    (hob : w.objectBytes = some b) (hsize : b.length > MULTIPART_TRIGGER_SIZE)
    (htag : tagLookup w.tagSet = some n) (hS : w.openSession = some mpuId) :
    planPhase noFaults true mpuId w
      = .ok (n, [⟨1, b⟩])
          { w with cachedSize := some b.length, nextCall := w.nextCall + 3 } := by
  simp [planPhase, objExists_spec, objSize, forceNat, getUncompressedSize,
    getBytesFromTag_spec, copyExistingObject_spec, Res.bind_ok, Res.bind_err, bump,
    noFaults_eq, hob, hsize, htag, hS]

/-! ### Outcome analysis of the plan phase and the metadata calls -/

theorem startMultipartUpload_ok (F : Nat → Bool) (w : World) (mpuId : Nat) (w1 : World)
    (h : startMultipartUpload F w = .ok mpuId w1) :
    w1.openSession = some mpuId ∧ w1.tagSet = w.tagSet ∧ w1.objectBytes = w.objectBytes
    ∧ w1.completedWith = w.completedWith ∧ w1.cachedSize = w.cachedSize := by
  rw [startMultipartUpload_spec] at h
  split at h
  · cases h
  · cases h
    exact ⟨rfl, rfl, rfl, rfl, rfl⟩

theorem startMultipartUpload_err (F : Nat → Bool) (w : World) (e : Err) (w1 : World)
    (h : startMultipartUpload F w = .err e w1) :
    w1.openSession = w.openSession ∧ w1.tagSet = w.tagSet ∧ w1.objectBytes = w.objectBytes
    ∧ w1.completedWith = w.completedWith := by
  rw [startMultipartUpload_spec] at h
  split at h
  · cases h
    exact ⟨rfl, rfl, rfl, rfl⟩
  · cases h

theorem objSize_pres (F : Nat → Bool) (r : Bool) (w : World) :
    (resWorld (objSize F r w)).tagSet = w.tagSet
    ∧ (resWorld (objSize F r w)).objectBytes = w.objectBytes
    ∧ (resWorld (objSize F r w)).openSession = w.openSession
    ∧ (resWorld (objSize F r w)).completedWith = w.completedWith := by
  by_cases hc : (w.cachedSize.isNone || r) = true
  · by_cases hF : F w.nextCall = true
    · have hE : objSize F r w = .err .backendFault (bump w) := by
        simp [objSize, objExists_spec, hc, hF, Res.bind_err]
      rw [hE]
      exact ⟨rfl, rfl, rfl, rfl⟩
    · cases hob : w.objectBytes with
      | none =>
        have hE : objSize F r w = .ok w.cachedSize (bump w) := by
          simp [objSize, objExists_spec, hc, hF, hob, Res.bind_ok, Res.bind_err, bump]
        rw [hE]
        exact ⟨rfl, hob, rfl, rfl⟩
      | some b =>
        have hE : objSize F r w
            = .ok (some b.length) { bump w with cachedSize := some b.length } := by
          simp [objSize, objExists_spec, hc, hF, hob, Res.bind_ok, Res.bind_err, bump]
        rw [hE]
        exact ⟨rfl, hob, rfl, rfl⟩
  · have hE : objSize F r w = .ok w.cachedSize w := by
      simp only [objSize]
      rw [if_neg hc]
    rw [hE]
    exact ⟨rfl, rfl, rfl, rfl⟩

theorem objSize_noFaults (r : Bool) (w : World) :
    ∃ v w', objSize noFaults r w = .ok v w' := by
  by_cases hc : (w.cachedSize.isNone || r) = true
  · cases hob : w.objectBytes with
    | none =>
      exact ⟨w.cachedSize, bump w, by simp [objSize, objExists_spec, hc, noFaults_eq, hob,
        Res.bind_ok, Res.bind_err, bump]⟩
    | some b =>
      exact ⟨some b.length, { bump w with cachedSize := some b.length },
        by simp [objSize, objExists_spec, hc, noFaults_eq, hob, Res.bind_ok, Res.bind_err, bump]⟩
  · refine ⟨w.cachedSize, w, ?_⟩
    simp only [objSize]
    rw [if_neg hc]

/-- Every outcome of the plan phase: the end world carries the same object
bytes, tag set, open session and completion record as the start world, and a
successful plan yields either starting byte 0 with no initial part, or the
recorded tag value with the existing object copied as part number 1 after its
size exceeded the trigger. -/
theorem planPhase_cases (F : Nat → Bool) (isGz : Bool) (mpuId : Nat) (w : World) :
    ((resWorld (planPhase F isGz mpuId w)).tagSet = w.tagSet
     ∧ (resWorld (planPhase F isGz mpuId w)).objectBytes = w.objectBytes
     ∧ (resWorld (planPhase F isGz mpuId w)).openSession = w.openSession
     ∧ (resWorld (planPhase F isGz mpuId w)).completedWith = w.completedWith)
    ∧ ∀ sp w', planPhase F isGz mpuId w = .ok sp w' →
        sp = (0, []) ∨ ∃ b n, w.objectBytes = some b
          ∧ MULTIPART_TRIGGER_SIZE < b.length ∧ sp = (n, [⟨1, b⟩]) := by
  by_cases hF1 : F w.nextCall = true
  · have hE : planPhase F isGz mpuId w = .err .backendFault (bump w) := by
      simp [planPhase, objExists_spec, hF1, Res.bind_err]
    rw [hE]
    exact ⟨⟨rfl, rfl, rfl, rfl⟩, fun sp w' h => by cases h⟩
  · rw [Bool.not_eq_true] at hF1
    cases hob : w.objectBytes with
    | none =>
      rw [planPhase_cold F isGz mpuId w hF1 hob]
      exact ⟨⟨rfl, hob, rfl, rfl⟩, fun sp w' h => by cases h; exact Or.inl rfl⟩
    | some b =>
      by_cases hsz : b.length > MULTIPART_TRIGGER_SIZE
      · cases isGz with
        | false =>
          by_cases hF2 : F (w.nextCall + 1) = true
          · have hE : planPhase F false mpuId w
                = .err .backendFault (bump { bump w with cachedSize := some b.length }) := by
              simp [planPhase, objExists_spec, objSize, forceNat, getUncompressedSize,
                copyExistingObject_spec, Res.bind_ok, Res.bind_err, bump, hF1, hob, hsz, hF2]
            rw [hE]
            exact ⟨⟨rfl, hob, rfl, rfl⟩, fun sp w' h => by cases h⟩
          · rw [Bool.not_eq_true] at hF2
            by_cases hS : w.openSession = some mpuId
            · have hE : planPhase F false mpuId w
                  = .ok (b.length, [⟨1, b⟩])
                      (bump { bump w with cachedSize := some b.length }) := by
                simp [planPhase, objExists_spec, objSize, forceNat, getUncompressedSize,
                  copyExistingObject_spec, Res.bind_ok, Res.bind_err, bump, hF1, hob, hsz, hF2, hS]
              rw [hE]
              refine ⟨⟨rfl, hob, rfl, rfl⟩, fun sp w' h => ?_⟩
              cases h
              exact Or.inr ⟨b, b.length, rfl, hsz, rfl⟩
            · have hE : planPhase F false mpuId w
                  = .err .noSuchUpload (bump { bump w with cachedSize := some b.length }) := by
                simp [planPhase, objExists_spec, objSize, forceNat, getUncompressedSize,
                  copyExistingObject_spec, Res.bind_ok, Res.bind_err, bump, hF1, hob, hsz, hF2, hS]
              rw [hE]
              exact ⟨⟨rfl, hob, rfl, rfl⟩, fun sp w' h => by cases h⟩
        | true =>
          by_cases hF2 : F (w.nextCall + 1) = true
          · have hE : planPhase F true mpuId w
                = .err .backendFault (bump { bump w with cachedSize := some b.length }) := by
              simp [planPhase, objExists_spec, objSize, forceNat, getUncompressedSize,
                getBytesFromTag_spec, Res.bind_ok, Res.bind_err, bump, hF1, hob, hsz, hF2]
            rw [hE]
            exact ⟨⟨rfl, hob, rfl, rfl⟩, fun sp w' h => by cases h⟩
          · rw [Bool.not_eq_true] at hF2
            cases htag : tagLookup w.tagSet with
            | none =>
              have hE : planPhase F true mpuId w
                  = .err .tagIndexError (bump { bump w with cachedSize := some b.length }) := by
                simp [planPhase, objExists_spec, objSize, forceNat, getUncompressedSize,
                  getBytesFromTag_spec, Res.bind_ok, Res.bind_err, bump, hF1, hob, hsz, hF2,
                  htag]
              rw [hE]
              exact ⟨⟨rfl, hob, rfl, rfl⟩, fun sp w' h => by cases h⟩
            | some n =>
              by_cases hF3 : F (w.nextCall + 1 + 1) = true
              · have hE : planPhase F true mpuId w
                    = .err .backendFault
                        (bump (bump { bump w with cachedSize := some b.length })) := by
                  simp [planPhase, objExists_spec, objSize, forceNat, getUncompressedSize,
                    getBytesFromTag_spec, copyExistingObject_spec, Res.bind_ok, Res.bind_err, bump, hF1,
                    hob, hsz, hF2, htag, hF3]
                rw [hE]
                exact ⟨⟨rfl, hob, rfl, rfl⟩, fun sp w' h => by cases h⟩
              · rw [Bool.not_eq_true] at hF3
                by_cases hS : w.openSession = some mpuId
                · have hE : planPhase F true mpuId w
                      = .ok (n, [⟨1, b⟩])
                          (bump (bump { bump w with cachedSize := some b.length })) := by
                    simp [planPhase, objExists_spec, objSize, forceNat, getUncompressedSize,
                      getBytesFromTag_spec, copyExistingObject_spec, Res.bind_ok, Res.bind_err, bump, hF1,
                      hob, hsz, hF2, htag, hF3, hS]
                  rw [hE]
                  refine ⟨⟨rfl, hob, rfl, rfl⟩, fun sp w' h => ?_⟩
                  cases h
                  exact Or.inr ⟨b, n, rfl, hsz, rfl⟩
                · have hE : planPhase F true mpuId w
                      = .err .noSuchUpload
                          (bump (bump { bump w with cachedSize := some b.length })) := by
                    simp [planPhase, objExists_spec, objSize, forceNat, getUncompressedSize,
                      getBytesFromTag_spec, copyExistingObject_spec, Res.bind_ok, Res.bind_err, bump, hF1,
                      hob, hsz, hF2, htag, hF3, hS]
                  rw [hE]
                  exact ⟨⟨rfl, hob, rfl, rfl⟩, fun sp w' h => by cases h⟩
      · rw [planPhase_small F isGz mpuId w b hF1 hob hsz]
        exact ⟨⟨rfl, hob, rfl, rfl⟩, fun sp w' h => by cases h; exact Or.inl rfl⟩

/-! ### Decomposition of a full engine run -/

theorem uploadEngine_ok_decomp (F : Nat → Bool) (isGz : Bool) (c : Compressor σ)
    (src : List Nat) (w : World) (u : Unit) (w' : World)
    (h : uploadEngine F isGz c src w = .ok u w') :
    ∃ mpuId w1 sp w2 u3 w3 v,
      startMultipartUpload F w = .ok mpuId w1
      ∧ planPhase F isGz mpuId w1 = .ok sp w2
      ∧ streamChunks F c mpuId src.length c.initState c.header sp.2
          (chunksOf (src.drop sp.1)) w2 = .ok u3 w3
      ∧ objSize F true w3 = .ok v w' := by
  simp only [uploadEngine] at h
  cases hst : startMultipartUpload F w with
  | err e w1 =>
    rw [hst] at h
    simp only [Res.bind_err] at h
    cases h
  | ok mpuId w1 =>
    rw [hst] at h
    simp only [Res.bind_ok] at h
    cases hpl : planPhase F isGz mpuId w1 with
    | err e w2 =>
      rw [hpl] at h
      simp only [Res.bind_err] at h
      cases h
    | ok sp w2 =>
      rw [hpl] at h
      simp only [Res.bind_ok] at h
      cases hsc : streamChunks F c mpuId src.length c.initState c.header sp.2
          (chunksOf (src.drop sp.1)) w2 with
      | err e w3 =>
        rw [hsc] at h
        simp only [Res.bind_err] at h
        cases h
      | ok u3 w3 =>
        rw [hsc] at h
        simp only [Res.bind_ok] at h
        cases hos : objSize F true w3 with
        | err e w4 =>
          rw [hos] at h
          simp only [Res.bind_err] at h
          cases h
        | ok v w4 =>
          rw [hos] at h
          simp only [Res.bind_ok] at h
          cases h
          exact ⟨mpuId, w1, sp, w2, u3, w3, v, rfl, hpl, hsc, hos⟩

theorem uploadEngine_err_decomp (F : Nat → Bool) (isGz : Bool) (c : Compressor σ)
    (src : List Nat) (w : World) (e : Err) (w' : World)
    (h : uploadEngine F isGz c src w = .err e w') :
    startMultipartUpload F w = .err e w'
    ∨ (∃ mpuId w1, startMultipartUpload F w = .ok mpuId w1
        ∧ planPhase F isGz mpuId w1 = .err e w')
    ∨ (∃ mpuId w1 sp w2, startMultipartUpload F w = .ok mpuId w1
        ∧ planPhase F isGz mpuId w1 = .ok sp w2
        ∧ streamChunks F c mpuId src.length c.initState c.header sp.2
            (chunksOf (src.drop sp.1)) w2 = .err e w')
    ∨ (∃ mpuId w1 sp w2 u3 w3, startMultipartUpload F w = .ok mpuId w1
        ∧ planPhase F isGz mpuId w1 = .ok sp w2
        ∧ streamChunks F c mpuId src.length c.initState c.header sp.2
            (chunksOf (src.drop sp.1)) w2 = .ok u3 w3
        ∧ objSize F true w3 = .err e w') := by
  simp only [uploadEngine] at h
  cases hst : startMultipartUpload F w with
  | err e1 w1 =>
    rw [hst] at h
    simp only [Res.bind_err] at h
    cases h
    exact Or.inl rfl
  | ok mpuId w1 =>
    rw [hst] at h
    simp only [Res.bind_ok] at h
    cases hpl : planPhase F isGz mpuId w1 with
    | err e1 w2 =>
      rw [hpl] at h
      simp only [Res.bind_err] at h
      cases h
      exact Or.inr (Or.inl ⟨mpuId, w1, rfl, hpl⟩)
    | ok sp w2 =>
      rw [hpl] at h
      simp only [Res.bind_ok] at h
      cases hsc : streamChunks F c mpuId src.length c.initState c.header sp.2
          (chunksOf (src.drop sp.1)) w2 with
      | err e1 w3 =>
        rw [hsc] at h
        simp only [Res.bind_err] at h
        cases h
        exact Or.inr (Or.inr (Or.inl ⟨mpuId, w1, sp, w2, rfl, hpl, hsc⟩))
      | ok u3 w3 =>
        rw [hsc] at h
        simp only [Res.bind_ok] at h
        cases hos : objSize F true w3 with
        | err e1 w4 =>
          rw [hos] at h
          simp only [Res.bind_err] at h
          cases h
          exact Or.inr (Or.inr (Or.inr ⟨mpuId, w1, sp, w2, u3, w3, rfl, hpl, hsc, hos⟩))
        | ok v w4 =>
          rw [hos] at h
          simp only [Res.bind_ok] at h
          cases h

/-! ### Fault-free full runs preserve the cross-run invariant -/

theorem tagLookup_single (n : Nat) :
    tagLookup [(S3_TAG_UNCOMPRESSED_SIZE, n)] = some n := by
  simp [tagLookup]

theorem engine_run (c : Compressor σ) (f dlt : List Nat) (w : World)
    (h : (w.objectBytes = none ∧ f = []) ∨ Inv c w f) :
    ∃ w', uploadEngine noFaults true c (f ++ dlt) w = .ok () w' ∧ Inv c w' (f ++ dlt) := by
  have hst : startMultipartUpload noFaults w
      = .ok (w.nextCall + 1) { bump w with openSession := some (w.nextCall + 1) } := by
    rw [startMultipartUpload_spec, if_neg (by exact Bool.false_ne_true)]
  rcases h with ⟨hob, hf⟩ | ⟨segss, hobj, hflat, htag⟩
  · -- cold start: no destination object, empty history
    subst hf
    have hpl := planPhase_cold noFaults true (w.nextCall + 1)
      { bump w with openSession := some (w.nextCall + 1) } rfl hob
    obtain ⟨u3, w3, hsc⟩ := streamChunks_noFaults c (w.nextCall + 1) ([] ++ dlt).length
      (chunksOf (([] ++ dlt).drop 0)) c.initState c.header []
      (bump { bump w with openSession := some (w.nextCall + 1) }) rfl
    obtain ⟨hcw3, hobj3, htag3, hsess3⟩ :=
      (streamChunks_spec noFaults c (w.nextCall + 1) ([] ++ dlt).length
        (chunksOf (([] ++ dlt).drop 0)) c.initState c.header []
        (bump { bump w with openSession := some (w.nextCall + 1) })).1 u3 w3 hsc
    obtain ⟨v, w4, hos⟩ := objSize_noFaults true w3
    have hp := objSize_pres noFaults true w3
    rw [hos] at hp
    simp only [resWorld] at hp
    obtain ⟨hp1, hp2, hp3, hp4⟩ := hp
    refine ⟨w4, ?_, ?_⟩
    · cases u3
      simp only [uploadEngine, hst, Res.bind_ok, hpl, hsc, hos]
    · refine ⟨[chunksOf (([] ++ dlt).drop 0)], ?_, ?_, ?_⟩
      · rw [hp2, hobj3]
        simp only [List.nil_append, newParts_flatten, compressAll, List.map_cons,
          List.map_nil, List.flatten_cons, List.flatten_nil, List.append_nil]
      · simp [flatten_chunksOf]
      · rw [hp1, htag3]
  · -- a previous run left the invariant; the object exists
    set ob : List Nat := (segss.map (compressAll c)).flatten with hobdef
    have hob1 : ({ bump w with openSession := some (w.nextCall + 1) } : World).objectBytes
        = some ob := hobj
    by_cases hsz : ob.length > MULTIPART_TRIGGER_SIZE
    · -- resume: copy the existing object as part 1, start from the tag value
      have htag1 : tagLookup ({ bump w with
          openSession := some (w.nextCall + 1) } : World).tagSet = some f.length := by
        show tagLookup w.tagSet = some f.length
        rw [htag]
        exact tagLookup_single _
      have hpl := planPhase_resume (w.nextCall + 1) f.length
        { bump w with openSession := some (w.nextCall + 1) } ob hob1 hsz htag1 rfl
      obtain ⟨u3, w3, hsc⟩ := streamChunks_noFaults c (w.nextCall + 1) (f ++ dlt).length
        (chunksOf ((f ++ dlt).drop f.length)) c.initState c.header [⟨1, ob⟩]
        { { bump w with openSession := some (w.nextCall + 1) } with
          cachedSize := some ob.length,
          nextCall := ({ bump w with openSession := some (w.nextCall + 1) } : World).nextCall + 3 }
        rfl
      obtain ⟨hcw3, hobj3, htag3, hsess3⟩ :=
        (streamChunks_spec noFaults c (w.nextCall + 1) (f ++ dlt).length
          (chunksOf ((f ++ dlt).drop f.length)) c.initState c.header [⟨1, ob⟩]
          { { bump w with openSession := some (w.nextCall + 1) } with
            cachedSize := some ob.length,
            nextCall := ({ bump w with
              openSession := some (w.nextCall + 1) } : World).nextCall + 3 }).1 u3 w3 hsc
      obtain ⟨v, w4, hos⟩ := objSize_noFaults true w3
      have hp := objSize_pres noFaults true w3
      rw [hos] at hp
      simp only [resWorld] at hp
      obtain ⟨hp1, hp2, hp3, hp4⟩ := hp
      refine ⟨w4, ?_, ?_⟩
      · cases u3
        simp only [uploadEngine, hst, Res.bind_ok, hpl, hsc, hos]
      · refine ⟨segss ++ [chunksOf ((f ++ dlt).drop f.length)], ?_, ?_, ?_⟩
        · rw [hp2, hobj3]
          simp only [newParts_flatten, compressAll, List.map_append, List.map_cons,
            List.map_nil, List.flatten_append, List.flatten_cons, List.flatten_nil,
            List.append_nil, List.singleton_append, List.cons_append, List.nil_append]
        · simp only [List.map_append, List.map_cons, List.map_nil, List.flatten_append,
            List.flatten_cons, List.flatten_nil, List.append_nil, flatten_chunksOf, hflat]
          rw [List.drop_left]
        · rw [hp1, htag3]
    · -- the object is below the trigger size: full re-upload from byte 0
      have hpl := planPhase_small noFaults true (w.nextCall + 1)
        { bump w with openSession := some (w.nextCall + 1) } ob rfl hob1 hsz
      obtain ⟨u3, w3, hsc⟩ := streamChunks_noFaults c (w.nextCall + 1) (f ++ dlt).length
        (chunksOf ((f ++ dlt).drop 0)) c.initState c.header []
        { bump { bump w with openSession := some (w.nextCall + 1) } with
          cachedSize := some ob.length } rfl
      obtain ⟨hcw3, hobj3, htag3, hsess3⟩ :=
        (streamChunks_spec noFaults c (w.nextCall + 1) (f ++ dlt).length
          (chunksOf ((f ++ dlt).drop 0)) c.initState c.header []
          { bump { bump w with openSession := some (w.nextCall + 1) } with
            cachedSize := some ob.length }).1 u3 w3 hsc
      obtain ⟨v, w4, hos⟩ := objSize_noFaults true w3
      have hp := objSize_pres noFaults true w3
      rw [hos] at hp
      simp only [resWorld] at hp
      obtain ⟨hp1, hp2, hp3, hp4⟩ := hp
      refine ⟨w4, ?_, ?_⟩
      · cases u3
        simp only [uploadEngine, hst, Res.bind_ok, hpl, hsc, hos]
      · refine ⟨[chunksOf ((f ++ dlt).drop 0)], ?_, ?_, ?_⟩
        · rw [hp2, hobj3]
          simp only [List.nil_append, newParts_flatten, compressAll, List.map_cons,
            List.map_nil, List.flatten_cons, List.flatten_nil, List.append_nil]
        · simp [flatten_chunksOf]
        · rw [hp1, htag3]

theorem uploadRuns_inv (c : Compressor σ) :
    ∀ (ds : List (List Nat)) (f : List Nat) (w : World), Inv c w f →
      ∃ w', uploadRuns noFaults true c (cumulativeFrom f ds) w = .ok () w'
        ∧ Inv c w' (f ++ ds.flatten) := by
  intro ds
  induction ds with
  | nil =>
    intro f w hInv
    refine ⟨w, rfl, ?_⟩
    rw [List.flatten_nil, List.append_nil]
    exact hInv
  | cons d ds ih =>
    intro f w hInv
    obtain ⟨w1, hrun, hInv1⟩ := engine_run c f d w (Or.inr hInv)
    obtain ⟨w2, hruns, hInv2⟩ := ih (f ++ d) w1 hInv1
    refine ⟨w2, ?_, ?_⟩
    · simp only [cumulativeFrom, uploadRuns, hrun, Res.bind_ok, hruns]
    · rw [List.flatten_cons, ← List.append_assoc]
      exact hInv2

/-! ### Small helpers for the claim theorems -/

theorem echoC_header : echoC.header = [] := rfl

theorem echoC_init : echoC.initState = () := rfl

theorem lenC_header : lenC.header = [] := rfl

theorem lenC_init : lenC.initState = [] := rfl

theorem range'_compose (p q : List Part)
    (h1 : p.map Part.partNumber = List.range' 1 p.length)
    (h2 : q.map Part.partNumber = List.range' (p.length + 1) q.length) :
    (p ++ q).map Part.partNumber = List.range' 1 (p ++ q).length := by
  rw [List.map_append, h1, h2, List.length_append]
  rw [show p.length + 1 = 1 + p.length from Nat.add_comm _ _]
  rw [List.range'_append_1]
  rw [Nat.add_comm p.length q.length]

/-! ### The claims -/

/-- C1: in the Plan phase of every upload run, if the remote object exists and
its physical size exceeds the fixed trigger size, the engine sets the starting
offset to the remote object's logical (uncompressed) size — the recorded tag
value — and appends a server-side copy of the existing object as part number 1
of the session; otherwise the starting offset is 0 and no initial copied part
is added to the part list. -/
theorem c1_plan_phase (mpuId n : Nat) (w : World) (b : List Nat) :
    (w.objectBytes = some b → b.length > MULTIPART_TRIGGER_SIZE →
      tagLookup w.tagSet = some n → w.openSession = some mpuId →
      planPhase noFaults true mpuId w
        = .ok (n, [⟨1, b⟩]) { w with cachedSize := some b.length, nextCall := w.nextCall + 3 })
    ∧ (w.objectBytes = none → planPhase noFaults true mpuId w = .ok (0, []) (bump w))
    ∧ (w.objectBytes = some b → ¬ b.length > MULTIPART_TRIGGER_SIZE →
        planPhase noFaults true mpuId w
          = .ok (0, []) { bump w with cachedSize := some b.length }) := by
  refine ⟨?_, ?_, ?_⟩
  · intro hob hsz htag hS
    exact planPhase_resume mpuId n w b hob hsz htag hS
  · intro hob
    exact planPhase_cold noFaults true mpuId w rfl hob
  · intro hob hsz
    exact planPhase_small noFaults true mpuId w b rfl hob hsz

/-- Witness for C1 at concrete worlds: a 5242881-byte object above the
trigger with tag 7 is resumed from offset 7 with the object copied as part 1;
an absent object and a 3-byte object both yield offset 0 and no initial
part. -/
theorem c1_plan_phase_witness :
    planPhase noFaults true 5
        ⟨none, some (List.replicate 5242881 0), [(S3_TAG_UNCOMPRESSED_SIZE, 7)],
          some 5, none, 0⟩
      = .ok (7, [⟨1, List.replicate 5242881 0⟩])
          { (⟨none, some (List.replicate 5242881 0), [(S3_TAG_UNCOMPRESSED_SIZE, 7)],
              some 5, none, 0⟩ : World) with
            cachedSize := some (List.replicate 5242881 (0 : Nat)).length,
            nextCall := 0 + 3 }
    ∧ planPhase noFaults true 5 coldWorld = .ok (0, []) (bump coldWorld)
    ∧ planPhase noFaults true 5 ⟨none, some [1, 2, 3], [], some 5, none, 0⟩
      = .ok (0, [])
          { bump (⟨none, some [1, 2, 3], [], some 5, none, 0⟩ : World) with
            cachedSize := some ([1, 2, 3] : List Nat).length } := by
  refine ⟨?_, ?_, ?_⟩
  · exact (c1_plan_phase 5 7 _ _).1 rfl
      (by simp only [List.length_replicate]; decide) (tagLookup_single 7) rfl
  · exact (c1_plan_phase 5 0 coldWorld []).2.1 rfl
  · exact (c1_plan_phase 5 0 _ [1, 2, 3]).2.2 rfl (by decide)

/-- C2: for every sequence of append-only runs over a growing local source
(the cumulative file states of a delta history), with a compressor whose
concatenated streams decompress to the concatenation of their inputs,
decompressing the final remote object's bytes yields exactly the local file's
full content as of the last run, byte for byte. -/
theorem c2_round_trip {σ : Type} (c : Compressor σ) (dec : List Nat → List Nat)
    (hc : RoundTrip c dec) (deltas : List (List Nat)) (hne : deltas ≠ [])
    (w : World) (hcold : w.objectBytes = none) :
    ∃ w' ob, uploadRuns noFaults true c (cumulativeFiles deltas) w = .ok () w'
      ∧ w'.objectBytes = some ob ∧ dec ob = deltas.flatten := by
  cases deltas with
  | nil => exact absurd rfl hne
  | cons d ds =>
    obtain ⟨w1, hrun, hInv1⟩ := engine_run c [] d w (Or.inl ⟨hcold, rfl⟩)
    obtain ⟨w2, hruns, hInv2⟩ := uploadRuns_inv c ds ([] ++ d) w1 hInv1
    obtain ⟨segss, hobj, hflat, _⟩ := hInv2
    refine ⟨w2, (segss.map (compressAll c)).flatten, ?_, hobj, ?_⟩
    · simp only [cumulativeFiles, cumulativeFrom, uploadRuns, hrun, Res.bind_ok, hruns]
    · rw [hc segss, hflat]
      simp

/-- Witness for C2: two append-only runs with the identity compressor over
deltas `[1,2]` then `[3]`. -/
theorem c2_round_trip_witness :
    RoundTrip echoC id
    ∧ ([[1, 2], [3]] : List (List Nat)) ≠ []
    ∧ coldWorld.objectBytes = none
    ∧ ∃ w' ob, uploadRuns noFaults true echoC (cumulativeFiles [[1, 2], [3]]) coldWorld
        = .ok () w' ∧ w'.objectBytes = some ob ∧ id ob = ([[1, 2], [3]] : List (List Nat)).flatten :=
  ⟨roundTrip_echo, by decide, rfl,
    c2_round_trip echoC id roundTrip_echo [[1, 2], [3]] (by decide) coldWorld rfl⟩

/-- C3: for every run that reaches completion, the part list passed to
`complete_multipart_upload` has part numbers forming exactly the contiguous
sequence `1..k`, in ascending order matching the order the parts were copied
or uploaded. -/
theorem c3_part_contiguity (F : Nat → Bool) {σ : Type} (c : Compressor σ) (isGz : Bool)
    (src : List Nat) (w : World) (u : Unit) (w' : World)
    (h : uploadEngine F isGz c src w = .ok u w') :
    ∃ ps, w'.completedWith = some ps
      ∧ ps.map Part.partNumber = List.range' 1 ps.length := by
  obtain ⟨mpuId, w1, sp, w2, u3, w3, v, hst, hpl, hsc, hos⟩ :=
    uploadEngine_ok_decomp F isGz c src w u w' h
  obtain ⟨hcw3, _, _, _⟩ :=
    (streamChunks_spec F c mpuId src.length (chunksOf (src.drop sp.1)) c.initState c.header
      sp.2 w2).1 u3 w3 hsc
  have hp := objSize_pres F true w3
  rw [hos] at hp
  simp only [resWorld] at hp
  have hshape := (planPhase_cases F isGz mpuId w1).2 sp w2 hpl
  have h1 : sp.2.map Part.partNumber = List.range' 1 sp.2.length := by
    rcases hshape with hz | ⟨b, n, _, _, hr⟩
    · rw [hz]
      rfl
    · rw [hr]
      rfl
  refine ⟨sp.2 ++ newParts c c.initState c.header (sp.2.length + 1) (chunksOf (src.drop sp.1)),
    ?_, ?_⟩
  · rw [hp.2.2.2, hcw3]
  · exact range'_compose _ _ h1 (newParts_numbers c _ _ _ _)

/-- Witness for C3: a concrete cold-start run over a 3-byte source. -/
theorem c3_part_contiguity_witness :
    uploadEngine noFaults false echoC [1, 2, 3] coldWorld
      = .ok () ⟨some 3, some [1, 2, 3], [(S3_TAG_UNCOMPRESSED_SIZE, 3)], none,
          some [⟨1, [1, 2, 3]⟩], 6⟩
    ∧ ∃ ps, (⟨some 3, some [1, 2, 3], [(S3_TAG_UNCOMPRESSED_SIZE, 3)], none,
          some [⟨1, [1, 2, 3]⟩], 6⟩ : World).completedWith = some ps
        ∧ ps.map Part.partNumber = List.range' 1 ps.length :=
  ⟨by decide,
    c3_part_contiguity noFaults echoC false [1, 2, 3] coldWorld ()
      ⟨some 3, some [1, 2, 3], [(S3_TAG_UNCOMPRESSED_SIZE, 3)], none,
        some [⟨1, [1, 2, 3]⟩], 6⟩ (by decide)⟩

/-- C4: in the Finalize phase of every run, on end of input the engine closes
the compressor (its trailing bytes land in the buffer) and uploads the
buffer's remaining contents as one final part unconditionally, even when it is
empty or below the trigger size; hence every completed run's part list is
non-empty, and in the no-growth resume case it consists of the reused copied
part plus one trailing part holding only the compressor's header and closing
bytes. -/
theorem c4_finalize {σ : Type} (c : Compressor σ) :
    (∀ F isGz src (w : World) u w', uploadEngine F isGz c src w = .ok u w' →
       ∃ ps, w'.completedWith = some ps ∧ ps ≠ [])
    ∧ (∀ (src : List Nat) (w : World) (b : List Nat), w.objectBytes = some b →
        b.length > MULTIPART_TRIGGER_SIZE → tagLookup w.tagSet = some src.length →
        ∃ w', uploadEngine noFaults true c src w = .ok () w'
          ∧ w'.completedWith = some [⟨1, b⟩, ⟨2, c.header ++ c.close c.initState⟩]) := by
  constructor
  · intro F isGz src w u w' h
    obtain ⟨mpuId, w1, sp, w2, u3, w3, v, hst, hpl, hsc, hos⟩ :=
      uploadEngine_ok_decomp F isGz c src w u w' h
    obtain ⟨hcw3, _, _, _⟩ :=
      (streamChunks_spec F c mpuId src.length (chunksOf (src.drop sp.1)) c.initState c.header
        sp.2 w2).1 u3 w3 hsc
    have hp := objSize_pres F true w3
    rw [hos] at hp
    simp only [resWorld] at hp
    refine ⟨sp.2 ++ newParts c c.initState c.header (sp.2.length + 1) (chunksOf (src.drop sp.1)),
      by rw [hp.2.2.2, hcw3], ?_⟩
    intro hcon
    rw [List.append_eq_nil] at hcon
    exact newParts_ne_nil c _ _ _ _ hcon.2
  · intro src w b hob hsz htag
    have hst : startMultipartUpload noFaults w
        = .ok (w.nextCall + 1) { bump w with openSession := some (w.nextCall + 1) } := by
      rw [startMultipartUpload_spec, if_neg (by exact Bool.false_ne_true)]
    have hob1 : ({ bump w with openSession := some (w.nextCall + 1) } : World).objectBytes
        = some b := hob
    have htag1 : tagLookup ({ bump w with
        openSession := some (w.nextCall + 1) } : World).tagSet = some src.length := htag
    have hpl := planPhase_resume (w.nextCall + 1) src.length
      { bump w with openSession := some (w.nextCall + 1) } b hob1 hsz htag1 rfl
    obtain ⟨u3, w3, hsc⟩ := streamChunks_noFaults c (w.nextCall + 1) src.length
      (chunksOf (src.drop src.length)) c.initState c.header [⟨1, b⟩]
      { { bump w with openSession := some (w.nextCall + 1) } with
        cachedSize := some b.length,
        nextCall := ({ bump w with openSession := some (w.nextCall + 1) } : World).nextCall + 3 }
      rfl
    obtain ⟨hcw3, _, htag3, _⟩ :=
      (streamChunks_spec noFaults c (w.nextCall + 1) src.length
        (chunksOf (src.drop src.length)) c.initState c.header [⟨1, b⟩]
        { { bump w with openSession := some (w.nextCall + 1) } with
          cachedSize := some b.length,
          nextCall := ({ bump w with
            openSession := some (w.nextCall + 1) } : World).nextCall + 3 }).1 u3 w3 hsc
    obtain ⟨v, w4, hos⟩ := objSize_noFaults true w3
    have hp := objSize_pres noFaults true w3
    rw [hos] at hp
    simp only [resWorld] at hp
    refine ⟨w4, ?_, ?_⟩
    · cases u3
      simp only [uploadEngine, hst, Res.bind_ok, hpl, hsc, hos]
    · rw [hp.2.2.2, hcw3]
      have hrest : chunksOf (src.drop src.length) = [] := by
        rw [List.drop_length]
        exact chunksOf_nil
      rw [hrest]
      simp [newParts]

/-- Witness for C4: the no-growth resume over a 5242881-byte object with the
identity compressor produces exactly the copied part and one empty trailing
part. -/
theorem c4_finalize_witness :
    (⟨none, some (List.replicate 5242881 0), [(S3_TAG_UNCOMPRESSED_SIZE, 5242881)],
        none, none, 0⟩ : World).objectBytes = some (List.replicate 5242881 0)
    ∧ (List.replicate 5242881 (0 : Nat)).length > MULTIPART_TRIGGER_SIZE
    ∧ tagLookup [(S3_TAG_UNCOMPRESSED_SIZE, 5242881)]
        = some (List.replicate 5242881 (0 : Nat)).length
    ∧ ∃ w', uploadEngine noFaults true echoC (List.replicate 5242881 0)
          ⟨none, some (List.replicate 5242881 0), [(S3_TAG_UNCOMPRESSED_SIZE, 5242881)],
            none, none, 0⟩ = .ok () w'
        ∧ w'.completedWith = some [⟨1, List.replicate 5242881 0⟩,
            ⟨2, echoC.header ++ echoC.close echoC.initState⟩] := by
  refine ⟨rfl, ?_, ?_, ?_⟩
  · simp only [List.length_replicate]
    decide
  · rw [List.length_replicate]
    exact tagLookup_single _
  · exact (c4_finalize echoC).2 (List.replicate 5242881 0) _ (List.replicate 5242881 0)
      rfl (by simp only [List.length_replicate]; decide)
      (by rw [List.length_replicate]; exact tagLookup_single _)

/-- C6: in the Commit phase of every completed run, `complete_multipart_upload`
is called with the accumulated ordered part list, and afterwards the
logical-size tag is written with the local source's total byte count, which
equals `startingOffset + bytesReadThisRun` whenever the starting offset does
not exceed the source size; in a cold start the starting offset is 0, so the
final tag equals the local source's total size. -/
theorem c6_commit (F : Nat → Bool) {σ : Type} (c : Compressor σ) (isGz : Bool)
    (src : List Nat) (w : World) (u : Unit) (w' : World)
    (h : uploadEngine F isGz c src w = .ok u w') :
    (∃ ps, w'.completedWith = some ps)
    ∧ w'.tagSet = [(S3_TAG_UNCOMPRESSED_SIZE, src.length)]
    ∧ (∀ mpuId w1 sp w2, startMultipartUpload F w = .ok mpuId w1 →
        planPhase F isGz mpuId w1 = .ok sp w2 →
        (sp.1 ≤ src.length → src.length = sp.1 + (src.drop sp.1).length)
        ∧ (w.objectBytes = none → sp.1 = 0)) := by
  obtain ⟨mpuId, w1, sp, w2, u3, w3, v, hst, hpl, hsc, hos⟩ :=
    uploadEngine_ok_decomp F isGz c src w u w' h
  obtain ⟨hcw3, _, htag3, _⟩ :=
    (streamChunks_spec F c mpuId src.length (chunksOf (src.drop sp.1)) c.initState c.header
      sp.2 w2).1 u3 w3 hsc
  have hp := objSize_pres F true w3
  rw [hos] at hp
  simp only [resWorld] at hp
  refine ⟨⟨_, by rw [hp.2.2.2, hcw3]⟩, by rw [hp.1, htag3], ?_⟩
  intro mpuId' w1' sp' w2' hst' hpl'
  constructor
  · intro hle
    rw [List.length_drop]
    omega
  · intro hobnone
    rw [hst] at hst'
    cases hst'
    have hw1ob : w1.objectBytes = none := by
      rw [(startMultipartUpload_ok F w mpuId w1 hst).2.2.1, hobnone]
    have hshape := (planPhase_cases F isGz mpuId w1).2 sp' w2' hpl'
    rcases hshape with hz | ⟨b, n, hob2, _, _⟩
    · rw [hz]
    · rw [hw1ob] at hob2
      cases hob2

/-- Witness for C6: a concrete cold-start run over a 2-byte source commits
with tag value 2, the source's total size. -/
theorem c6_commit_witness :
    uploadEngine noFaults false echoC [5, 6] coldWorld
      = .ok () ⟨some 2, some [5, 6], [(S3_TAG_UNCOMPRESSED_SIZE, 2)], none,
          some [⟨1, [5, 6]⟩], 6⟩
    ∧ (⟨some 2, some [5, 6], [(S3_TAG_UNCOMPRESSED_SIZE, 2)], none,
          some [⟨1, [5, 6]⟩], 6⟩ : World).tagSet
        = [(S3_TAG_UNCOMPRESSED_SIZE, ([5, 6] : List Nat).length)]
    ∧ (∀ mpuId w1 sp w2, startMultipartUpload noFaults coldWorld = .ok mpuId w1 →
        planPhase noFaults false mpuId w1 = .ok sp w2 →
        (sp.1 ≤ ([5, 6] : List Nat).length →
          ([5, 6] : List Nat).length = sp.1 + (([5, 6] : List Nat).drop sp.1).length)
        ∧ (coldWorld.objectBytes = none → sp.1 = 0)) :=
  ⟨by decide,
    (c6_commit noFaults echoC false [5, 6] coldWorld ()
      ⟨some 2, some [5, 6], [(S3_TAG_UNCOMPRESSED_SIZE, 2)], none, some [⟨1, [5, 6]⟩], 6⟩
      (by decide)).2.1,
    (c6_commit noFaults echoC false [5, 6] coldWorld ()
      ⟨some 2, some [5, 6], [(S3_TAG_UNCOMPRESSED_SIZE, 2)], none, some [⟨1, [5, 6]⟩], 6⟩
      (by decide)).2.2⟩

/-- C7: if any backend operation fails before `complete_multipart_upload`
succeeds, the run aborts without writing the logical-size tag: on every raised
error the tag set is either untouched, or the completion already happened and
the tag already carries the committed value (the tag write occurs only after a
successful completion). -/
theorem c7_error_no_tag (F : Nat → Bool) {σ : Type} (c : Compressor σ) (isGz : Bool)
    (src : List Nat) (w : World) (e : Err) (w' : World)
    (h : uploadEngine F isGz c src w = .err e w') :
    w'.tagSet = w.tagSet
    ∨ (∃ ps, w'.completedWith = some ps
        ∧ w'.tagSet = [(S3_TAG_UNCOMPRESSED_SIZE, src.length)]) := by
  rcases uploadEngine_err_decomp F isGz c src w e w' h with
    hst | ⟨mpuId, w1, hst, hpl⟩ | ⟨mpuId, w1, sp, w2, hst, hpl, hsc⟩
      | ⟨mpuId, w1, sp, w2, u3, w3, hst, hpl, hsc, hos⟩
  · exact Or.inl (startMultipartUpload_err F w e w' hst).2.1
  · have h1 := (startMultipartUpload_ok F w mpuId w1 hst).2.1
    have h2 := (planPhase_cases F isGz mpuId w1).1.1
    rw [hpl] at h2
    simp only [resWorld] at h2
    exact Or.inl (h2.trans h1)
  · have h1 := (startMultipartUpload_ok F w mpuId w1 hst).2.1
    have h2 := (planPhase_cases F isGz mpuId w1).1.1
    rw [hpl] at h2
    simp only [resWorld] at h2
    obtain ⟨h3, _⟩ := (streamChunks_spec F c mpuId src.length (chunksOf (src.drop sp.1))
      c.initState c.header sp.2 w2).2 e w' hsc
    exact Or.inl ((h3.trans h2).trans h1)
  · obtain ⟨hcw3, _, htag3, _⟩ := (streamChunks_spec F c mpuId src.length
      (chunksOf (src.drop sp.1)) c.initState c.header sp.2 w2).1 u3 w3 hsc
    have hp := objSize_pres F true w3
    rw [hos] at hp
    simp only [resWorld] at hp
    exact Or.inr ⟨_, by rw [hp.2.2.2, hcw3], by rw [hp.1, htag3]⟩

/-- Witness for C7: a fault on the very first backend call (the
`create_multipart_upload`) aborts the run with the tag set untouched. -/
theorem c7_error_no_tag_witness :
    uploadEngine (fun i => i == 0) false echoC [1] coldWorld
      = .err .backendFault (bump coldWorld)
    ∧ ((bump coldWorld).tagSet = coldWorld.tagSet
        ∨ (∃ ps, (bump coldWorld).completedWith = some ps
            ∧ (bump coldWorld).tagSet
              = [(S3_TAG_UNCOMPRESSED_SIZE, ([1] : List Nat).length)])) :=
  ⟨by decide,
    c7_error_no_tag (fun i => i == 0) echoC false [1] coldWorld .backendFault
      (bump coldWorld) (by decide)⟩

theorem blowC_write (s : Unit) (ch : List Nat) :
    blowC.write s ch = ((), List.replicate (MULTIPART_TRIGGER_SIZE + 1) 0) := rfl

/-- C5: in the Stream phase, after each chunk is written to the buffer, the
buffer is uploaded as part number `len(parts) + 1` if and only if its size
exceeds the trigger size; on a flush the returned part record is appended and
the loop continues with the buffer that `upload_part` rewound and truncated to
empty; otherwise the part list, the grown buffer and the backend are left as
they were. -/
theorem c5_stream_flush (F : Nat → Bool) {σ : Type} (c : Compressor σ) (mpuId : Nat)
    (cs : σ) (buf : List Nat) (parts : List Part) (chunk : List Nat) (w : World)
    (cs' : σ) (buf' : List Nat) (parts' : List Part) (w' : World)
    (h : streamStep F c mpuId cs buf parts chunk w = .ok (cs', buf', parts') w') :
    (parts' ≠ parts ↔ (buf ++ (c.write cs chunk).2).length > MULTIPART_TRIGGER_SIZE)
    ∧ ((buf ++ (c.write cs chunk).2).length > MULTIPART_TRIGGER_SIZE →
        parts' = parts ++ [⟨parts.length + 1, buf ++ (c.write cs chunk).2⟩] ∧ buf' = [])
    ∧ (¬ (buf ++ (c.write cs chunk).2).length > MULTIPART_TRIGGER_SIZE →
        parts' = parts ∧ buf' = buf ++ (c.write cs chunk).2 ∧ w' = w)
    ∧ (∀ uid pid pb (w0 : World) p b2 w0', uploadPart F uid pid pb w0 = .ok (p, b2) w0' →
        p = ⟨pid, pb⟩ ∧ b2 = []) := by
  have hup : ∀ uid pid pb (w0 : World) p b2 w0',
      uploadPart F uid pid pb w0 = .ok (p, b2) w0' → p = ⟨pid, pb⟩ ∧ b2 = [] := by
    intro uid pid pb w0 p b2 w0' hu
    rw [uploadPart_spec] at hu
    split at hu
    · cases hu
    · split at hu
      · cases hu
        exact ⟨rfl, rfl⟩
      · cases hu
  by_cases hflush : (buf ++ (c.write cs chunk).2).length > MULTIPART_TRIGGER_SIZE
  · simp only [streamStep] at h
    rw [if_pos hflush] at h
    cases hu : uploadPart F mpuId (parts.length + 1) (buf ++ (c.write cs chunk).2) w with
    | err e w0 =>
      rw [hu] at h
      simp only [Res.bind_err] at h
      cases h
    | ok pb w0 =>
      rw [hu] at h
      simp only [Res.bind_ok] at h
      cases h
      obtain ⟨hp1, hp2⟩ := hup _ _ _ _ _ _ _ hu
      have hne : parts ++ [pb.1] ≠ parts := by
        intro heq
        have hlen := congrArg List.length heq
        simp at hlen
      exact ⟨⟨fun _ => hflush, fun _ => hne⟩, fun _ => ⟨by rw [hp1], hp2⟩,
        fun hcon => absurd hflush hcon, hup⟩
  · simp only [streamStep] at h
    rw [if_neg hflush] at h
    cases h
    exact ⟨⟨fun hne => absurd rfl hne, fun hcond => absurd hcond hflush⟩,
      fun hcond => absurd hcond hflush, fun _ => ⟨rfl, rfl, rfl⟩, hup⟩

/-- Witness for C5: one chunk whose compressed output already exceeds the
trigger size flushes the buffer as part 1. -/
theorem c5_stream_flush_witness :
    streamStep noFaults blowC 1 () [] [] [0] ⟨none, none, [], some 1, none, 0⟩
      = .ok ((), [], [⟨1, [] ++ (blowC.write () [0]).2⟩])
          (bump ⟨none, none, [], some 1, none, 0⟩)
    ∧ (([⟨1, [] ++ (blowC.write () [0]).2⟩] : List Part) ≠ []
        ↔ (([] : List Nat) ++ (blowC.write () [0]).2).length > MULTIPART_TRIGGER_SIZE) := by
  have hstep : streamStep noFaults blowC 1 () [] [] [0] ⟨none, none, [], some 1, none, 0⟩
      = .ok ((), [], [⟨1, [] ++ (blowC.write () [0]).2⟩])
          (bump ⟨none, none, [], some 1, none, 0⟩) := by
    simp only [streamStep]
    rw [if_pos (by simp only [blowC_write, List.nil_append, List.length_replicate]; decide)]
    rw [uploadPart_spec, if_neg (by exact Bool.false_ne_true), if_pos rfl]
    rfl
  exact ⟨hstep,
    (c5_stream_flush noFaults blowC 1 () [] [] [0] ⟨none, none, [], some 1, none, 0⟩
      () [] [⟨1, [] ++ (blowC.write () [0]).2⟩]
      (bump ⟨none, none, [], some 1, none, 0⟩) hstep).1⟩

/-- C8 (amended): `get_uncompressed_size` returns the integer parsed from the
`total_uncompressed_size` tag when the key ends in `.gz` and fails when that
tag is absent; for a non-gz key it returns the raw cached `_size` attribute
directly, without refreshing it (python `None` when the object was never
probed). -/
theorem c8_logical_size (F : Nat → Bool) (w : World) (n : Nat) :
    getUncompressedSize F false w = .ok w.cachedSize w
    ∧ (tagLookup w.tagSet = some n →
        getUncompressedSize noFaults true w = .ok (some n) (bump w))
    ∧ (tagLookup w.tagSet = none →
        getUncompressedSize noFaults true w = .err .tagIndexError (bump w)) := by
  refine ⟨rfl, ?_, ?_⟩
  · intro htag
    show (getBytesFromTag noFaults w).bind (fun v w' => .ok (some v) w') = _
    rw [getBytesFromTag_spec, if_neg (by exact Bool.false_ne_true), htag]
    rfl
  · intro htag
    show (getBytesFromTag noFaults w).bind (fun v w' => .ok (some v) w') = _
    rw [getBytesFromTag_spec, if_neg (by exact Bool.false_ne_true), htag]
    rfl

/-- Counterexample for C8 as stated: on a non-gz key with the cached size
unset, `get_uncompressed_size` returns the raw cached attribute (python
`None`) without refreshing, while the spec's `logicalSize` contract — going
through the `size()` accessor, which refreshes an unset cache — returns the
physical size. -/
theorem c8_counterexample :
    getUncompressedSize noFaults false ⟨none, some [1, 2, 3], [], none, none, 0⟩
      = .ok none ⟨none, some [1, 2, 3], [], none, none, 0⟩
    ∧ logicalSizeSpec noFaults false ⟨none, some [1, 2, 3], [], none, none, 0⟩
      = .ok (some 3) ⟨some 3, some [1, 2, 3], [], none, none, 1⟩
    ∧ (none : Option Nat) ≠ some 3 := by
  refine ⟨rfl, by decide, by decide⟩

/-- Witness for C8's amended claim at concrete tag sets. -/
theorem c8_logical_size_witness :
    tagLookup [(S3_TAG_UNCOMPRESSED_SIZE, 9)] = some 9
    ∧ tagLookup [] = none
    ∧ getUncompressedSize noFaults false ⟨none, none, [], none, none, 0⟩
        = .ok none ⟨none, none, [], none, none, 0⟩
    ∧ getUncompressedSize noFaults true
        ⟨none, none, [(S3_TAG_UNCOMPRESSED_SIZE, 9)], none, none, 0⟩
        = .ok (some 9) (bump ⟨none, none, [(S3_TAG_UNCOMPRESSED_SIZE, 9)], none, none, 0⟩)
    ∧ getUncompressedSize noFaults true ⟨none, none, [], none, none, 0⟩
        = .err .tagIndexError (bump ⟨none, none, [], none, none, 0⟩) :=
  ⟨tagLookup_single 9, rfl,
    (c8_logical_size noFaults ⟨none, none, [], none, none, 0⟩ 9).1,
    (c8_logical_size noFaults
      ⟨none, none, [(S3_TAG_UNCOMPRESSED_SIZE, 9)], none, none, 0⟩ 9).2.1
      (tagLookup_single 9),
    (c8_logical_size noFaults ⟨none, none, [], none, none, 0⟩ 9).2.2 rfl⟩

/-- A run with a compressor that emits no header and no output during writes
uploads exactly one part: the single final part produced at close. -/
theorem silent_run {σ : Type} (c : Compressor σ) (hsil : ∀ s ch, (c.write s ch).2 = [])
    (hh : c.header = ([] : List Nat)) (src : List Nat) (w : World)
    (hcold : w.objectBytes = none) :
    ∃ w', uploadEngine noFaults true c src w = .ok () w'
      ∧ w'.completedWith.map List.length = some 1 := by
  have hst : startMultipartUpload noFaults w
      = .ok (w.nextCall + 1) { bump w with openSession := some (w.nextCall + 1) } := by
    rw [startMultipartUpload_spec, if_neg (by exact Bool.false_ne_true)]
  have hpl := planPhase_cold noFaults true (w.nextCall + 1)
    { bump w with openSession := some (w.nextCall + 1) } rfl hcold
  obtain ⟨u3, w3, hsc⟩ := streamChunks_noFaults c (w.nextCall + 1) src.length
    (chunksOf (src.drop 0)) c.initState c.header []
    (bump { bump w with openSession := some (w.nextCall + 1) }) rfl
  obtain ⟨hcw3, _, _, _⟩ :=
    (streamChunks_spec noFaults c (w.nextCall + 1) src.length
      (chunksOf (src.drop 0)) c.initState c.header []
      (bump { bump w with openSession := some (w.nextCall + 1) })).1 u3 w3 hsc
  obtain ⟨v, w4, hos⟩ := objSize_noFaults true w3
  have hp := objSize_pres noFaults true w3
  rw [hos] at hp
  simp only [resWorld] at hp
  refine ⟨w4, ?_, ?_⟩
  · cases u3
    simp only [uploadEngine, hst, Res.bind_ok, hpl, hsc, hos]
  · rw [hp.2.2.2, hcw3, hh]
    rw [newParts_silent c hsil]
    rfl

/-- Counterexample for C9 as stated: with a compressor that satisfies the
required concatenation round-trip property but buffers its output — the shape
gzip takes on highly compressible data — a cold-start run over a source of
exactly `MULTIPART_TRIGGER_SIZE + 1 = 5242881` bytes never exceeds the
trigger mid-stream and completes with exactly one part, not two. -/
theorem c9_counterexample :
    (∃ w', uploadEngine noFaults true lenC (List.replicate 5242881 0) coldWorld = .ok () w'
      ∧ w'.completedWith.map List.length = some 1)
    ∧ RoundTrip lenC lenD
    ∧ (List.replicate 5242881 (0 : Nat)).length = MULTIPART_TRIGGER_SIZE + 1
    ∧ (1 : Nat) ≠ 2 :=
  ⟨silent_run lenC lenC_silent rfl (List.replicate 5242881 0) coldWorld rfl,
    roundTrip_lenC, by simp only [List.length_replicate]; decide, by decide⟩

/-- C9 (amended): for a source of exactly `trigger_size + 1 = 5242881` bytes
with the destination absent, the run completes and the final tag value is
5242881; the two-part shape — part 1 of at least 5242880 bytes flushed
mid-stream and part 2 holding the remainder — holds when the compressed
stream mirrors the raw bytes (the identity compressor), while a compressor
that buffers its output can produce a single part. -/
theorem c9_two_parts (src : List Nat) (w : World)
    (hlen : src.length = MULTIPART_TRIGGER_SIZE + 1) (hcold : w.objectBytes = none) :
    ∃ w', uploadEngine noFaults true echoC src w = .ok () w'
      ∧ w'.completedWith = some [⟨1, src⟩, ⟨2, []⟩]
      ∧ w'.tagSet = [(S3_TAG_UNCOMPRESSED_SIZE, MULTIPART_TRIGGER_SIZE + 1)]
      ∧ MULTIPART_TRIGGER_SIZE + 1 = 5242881 := by
  have hst : startMultipartUpload noFaults w
      = .ok (w.nextCall + 1) { bump w with openSession := some (w.nextCall + 1) } := by
    rw [startMultipartUpload_spec, if_neg (by exact Bool.false_ne_true)]
  have hpl := planPhase_cold noFaults true (w.nextCall + 1)
    { bump w with openSession := some (w.nextCall + 1) } rfl hcold
  obtain ⟨u3, w3, hsc⟩ := streamChunks_noFaults echoC (w.nextCall + 1) src.length
    (chunksOf (src.drop 0)) echoC.initState echoC.header []
    (bump { bump w with openSession := some (w.nextCall + 1) }) rfl
  obtain ⟨hcw3, _, htag3, _⟩ :=
    (streamChunks_spec noFaults echoC (w.nextCall + 1) src.length
      (chunksOf (src.drop 0)) echoC.initState echoC.header []
      (bump { bump w with openSession := some (w.nextCall + 1) })).1 u3 w3 hsc
  obtain ⟨v, w4, hos⟩ := objSize_noFaults true w3
  have hp := objSize_pres noFaults true w3
  rw [hos] at hp
  simp only [resWorld] at hp
  refine ⟨w4, ?_, ?_, ?_, by decide⟩
  · cases u3
    simp only [uploadEngine, hst, Res.bind_ok, hpl, hsc, hos]
  · rw [hp.2.2.2, hcw3]
    rw [show echoC.header = ([] : List Nat) from rfl, show echoC.initState = () from rfl]
    rw [List.drop_zero]
    rw [newParts_echo src.length src [] (List.length ([] : List Part) + 1) (Nat.le_refl _)
      (by simpa using hlen) (by rw [hlen, trigger_value])]
    rfl
  · rw [hp.1, htag3, hlen]

/-- Witness for C9's amended claim: a 5242881-byte all-zero source with the
identity compressor. -/
theorem c9_two_parts_witness :
    (List.replicate 5242881 (0 : Nat)).length = MULTIPART_TRIGGER_SIZE + 1
    ∧ coldWorld.objectBytes = none
    ∧ ∃ w', uploadEngine noFaults true echoC (List.replicate 5242881 0) coldWorld = .ok () w'
        ∧ w'.completedWith = some [⟨1, List.replicate 5242881 0⟩, ⟨2, []⟩]
        ∧ w'.tagSet = [(S3_TAG_UNCOMPRESSED_SIZE, MULTIPART_TRIGGER_SIZE + 1)]
        ∧ MULTIPART_TRIGGER_SIZE + 1 = 5242881 :=
  ⟨by simp only [List.length_replicate]; decide, rfl,
    c9_two_parts (List.replicate 5242881 0) coldWorld
      (by simp only [List.length_replicate]; decide) rfl⟩

/-- C10: the `compress` constructor flag is stored but never consulted — two
uploader instances differing only in that flag behave identically on every
fault schedule, compressor and backend state, and every run streams all bytes
through the one compressor handed to it. -/
theorem c10_compress_flag {σ : Type} (F : Nat → Bool) (c : Compressor σ) (w : World)
    (src : List Nat) (g b1 b2 : Bool) :
    S3DiffUploader.upload ⟨src, g, b1⟩ F c w = S3DiffUploader.upload ⟨src, g, b2⟩ F c w := rfl

end Differ
